import Mathlib

/-!
Verification of the data aggregation and presentation pipeline of the crime
dashboard (`src/app.py`).

The dashboard loads a table of pre-aggregated crime records and derives five
views by grouping and summation (pandas `groupby(...).sum()` followed by
`sort_values`/`head`).  We embed the table as a `List Row` and each pandas
pipeline as a pure Lean function:

* `groupby(k).sum()` (pandas default `sort=True`) is modelled by
  `groupSumBy`: the distinct keys in ascending key order, each paired with the
  sum of `crime_count` over the rows carrying that key;
* `sort_values("crime_count", ascending=False)` is modelled by a stable
  insertion sort on the summed count, descending (the tie order of pandas'
  default quicksort is implementation-defined, and the spec leaves
  tie-breaking implementation-defined as well);
* `head(n)` is `List.take n`.

Coordinates (`location_x`, `location_y`) are only ever used as grouping keys
(equality and ordering); they are embedded as `Int`.  `crime_count` is a
non-negative integer per the data model, embedded as `Nat`.

The label assignment `top_categories["Others"] = others` is a pandas
label-based Series assignment: it overwrites the value at an existing index
label `"Others"`, and only appends a new trailing entry when no such label is
present.  `assignOthers` models exactly that.
-/

/-- One row of the source table `data/crime_data.csv`, per the dataset columns
listed on the About page of `src/app.py`. -/
structure Row where
  station : String
  category : String
  location_x : Int
  location_y : Int
  year : Int
  crime_count : Nat
  deriving DecidableEq

/-- Code-point lexicographic strict order on strings, the order Python uses
to compare `str` values (pandas sorts string group keys with it). -/
def strLt (a b : String) : Prop := a.data < b.data

instance : DecidableRel strLt := fun a b =>
  inferInstanceAs (Decidable (a.data < b.data))

/-- Reflexive closure of `strLt`. -/
def strLe (a b : String) : Prop := strLt a b ∨ a = b

instance : DecidableRel strLe := fun a b =>
  inferInstanceAs (Decidable (strLt a b ∨ a = b))

/-- Total of `crime_count` over all rows of a table. -/
def totalCount (rows : List Row) : Nat :=
  (rows.map Row.crime_count).sum

/-- Summed `crime_count` of the group of rows whose key is `k`. -/
def groupVal {K : Type} [DecidableEq K] (key : Row → K) (rows : List Row)
    (k : K) : Nat :=
  ((rows.filter (fun r => key r = k)).map Row.crime_count).sum

/-- Model of pandas `rows.groupby(key)["crime_count"].sum()` with the default
`sort=True`: the distinct key values in ascending order under `le`, each
paired with the summed `crime_count` of its group. -/
def groupSumBy {K : Type} [DecidableEq K] (le : K → K → Prop) [DecidableRel le]
    (key : Row → K) (rows : List Row) : List (K × Nat) :=
  (List.insertionSort le (rows.map key).dedup).map
    (fun k => (k, groupVal key rows k))

/-- Comparison used by `sort_values("crime_count", ascending=False)`:
an entry precedes another when its summed count is at least as large. -/
def countGe {K : Type} (a b : K × Nat) : Prop := b.2 ≤ a.2

instance {K : Type} : DecidableRel (@countGe K) :=
  fun a b => inferInstanceAs (Decidable (b.2 ≤ a.2))

instance {K : Type} : IsTotal (K × Nat) countGe :=
  ⟨fun a b => Nat.le_total b.2 a.2⟩

instance {K : Type} : IsTrans (K × Nat) countGe :=
  ⟨fun _ _ _ h1 h2 => Nat.le_trans h2 h1⟩

/-- Model of pandas `sort_values("crime_count", ascending=False)`. -/
def sortByCountDesc {K : Type} (l : List (K × Nat)) : List (K × Nat) :=
  List.insertionSort countGe l

/-- Lexicographic order on coordinate pairs, the ascending multi-key order of
pandas `groupby(["location_x", "location_y"])`. -/
def pairLe (a b : Int × Int) : Prop :=
  a.1 < b.1 ∨ (a.1 = b.1 ∧ a.2 ≤ b.2)

instance : DecidableRel pairLe :=
  fun a b => inferInstanceAs (Decidable (a.1 < b.1 ∨ (a.1 = b.1 ∧ a.2 ≤ b.2)))

/-- Lexicographic order on (station, x, y) triples, the ascending multi-key
order of pandas `groupby(["station", "location_x", "location_y"])`. -/
def tripleLe (a b : String × Int × Int) : Prop :=
  strLt a.1 b.1 ∨ (a.1 = b.1 ∧ pairLe a.2 b.2)

instance : DecidableRel tripleLe :=
  fun a b => inferInstanceAs (Decidable (strLt a.1 b.1 ∨ (a.1 = b.1 ∧ pairLe a.2 b.2)))

/-- Sum of the summed counts shown by a derived view. -/
def viewTotal {K : Type} (l : List (K × Nat)) : Nat :=
  (l.map Prod.snd).sum

/-- `station_counts` of `src/app.py` line 101:
`data.groupby("station")["crime_count"].sum().sort_values(ascending=False).head(15)`. -/
def station_counts (data : List Row) : List (String × Nat) :=
  (sortByCountDesc (groupSumBy strLe Row.station data)).take 15

/-- `category_counts` of `src/app.py` line 114:
`data.groupby("category")["crime_count"].sum().sort_values(ascending=False)`. -/
def category_counts (data : List Row) : List (String × Nat) :=
  sortByCountDesc (groupSumBy strLe Row.category data)

/-- The residual sum `others = category_counts.iloc[8:].sum()` of line 118. -/
def othersSum (data : List Row) : Nat :=
  (((category_counts data).drop 8).map Prod.snd).sum

/-- Pandas label assignment `series["Others"] = v`: overwrite the value at an
existing index label `"Others"`, otherwise append a new trailing entry. -/
def assignOthers (l : List (String × Nat)) (v : Nat) : List (String × Nat) :=
  if l.any (fun p => p.1 == "Others") then
    l.map (fun p => if p.1 = "Others" then (p.1, v) else p)
  else
    l ++ [("Others", v)]

/-- `top_categories` of `src/app.py` lines 117-121: keep the 8 largest
category totals and, when the residual sum is positive, assign it to the
label `"Others"`. -/
def top_categories (data : List Row) : List (String × Nat) :=
  let top := (category_counts data).take 8
  if 0 < othersSum data then assignOthers top (othersSum data) else top

/-- `yearly_trend` of `src/app.py` line 150:
`data.groupby("year")["crime_count"].sum()` (index ascending by year). -/
def yearly_trend (data : List Row) : List (Int × Nat) :=
  groupSumBy (· ≤ ·) Row.year data

/-- `station_locations` of `src/app.py` lines 165-167:
`data.groupby(["station", "location_x", "location_y"])["crime_count"].sum()`. -/
def station_locations (data : List Row) : List ((String × Int × Int) × Nat) :=
  groupSumBy tripleLe (fun r => (r.station, r.location_x, r.location_y)) data

/-- `hotspot_data` of `src/app.py` lines 190-195: group by the coordinate
pair, sum, sort descending, keep the top 20. -/
def hotspot_data (data : List Row) : List ((Int × Int) × Nat) :=
  (sortByCountDesc
    (groupSumBy pairLe (fun r => (r.location_x, r.location_y)) data)).take 20

/-- Number of distinct categories of the table. -/
def numCategories (data : List Row) : Nat :=
  ((data.map Row.category).dedup).length

/-- Outcome of the underlying `pd.read_csv("data/crime_data.csv")` call of
line 20: it either produces a table or raises (file absent, unreadable,
malformed). -/
inductive LoadOutcome where
  | ok (t : List Row)
  | failure (msg : String)
  deriving DecidableEq

/-- Lines 23-26 of `src/app.py`: the bare `try/except` around `load_data()`
catches every exception and leaves `data = None`, so the rest of the program
receives either a table or the explicit `None` signal. -/
def loadDataSafe : LoadOutcome → Option (List Row)
  | .ok t => some t
  | .failure _ => none

/-- What a page branch of `src/app.py` renders, abstracting chart layout:
either one of the four content pages (the analysis page carrying its five
derived views) or a `st.warning` message. -/
inductive Rendered where
  | homePage
  | overviewPage (sample : List Row) (nrows ncols : Nat)
  | analysisPage (stations : List (String × Nat)) (cats : List (String × Nat))
      (years : List (Int × Nat)) (locs : List ((String × Int × Int) × Nat))
      (hot : List ((Int × Int) × Nat))
  | aboutPage
  | warning (msg : String)
  deriving DecidableEq

/-- The `Home` branch (lines 40-57): static content, independent of `data`. -/
def renderHome (_d : Option (List Row)) : Rendered :=
  Rendered.homePage

/-- The `Dataset Overview` branch (lines 62-85): content when `data` is not
`None` (showing `data.head(50)` and the shape), else the warning of line 85. -/
def renderOverview : Option (List Row) → Rendered
  | some t => Rendered.overviewPage (t.take 50) t.length 6
  | none =>
      Rendered.warning "Dataset not found. Please add crime_data.csv in the data folder."

/-- The `Data Analysis` branch (lines 90-214): the five derived views when
`data` is not `None`, else the warning of line 214. -/
def renderAnalysis : Option (List Row) → Rendered
  | some t => Rendered.analysisPage (station_counts t) (top_categories t)
      (yearly_trend t) (station_locations t) (hotspot_data t)
  | none => Rendered.warning "No data available for analysis."

/-- The `About Research` branch (lines 250-289): static content, independent
of `data`. -/
def renderAbout (_d : Option (List Row)) : Rendered :=
  Rendered.aboutPage

/-- Whether a rendered page is a `st.warning` placeholder. -/
def isWarning : Rendered → Bool
  | Rendered.warning _ => true
  | _ => false

/-- The five derived views of the analysis page, bundled. -/
structure AnalysisOutput where
  stations : List (String × Nat)
  categories : List (String × Nat)
  years : List (Int × Nat)
  locations : List ((String × Int × Int) × Nat)
  hotspots : List ((Int × Int) × Nat)
  deriving DecidableEq

/-- Sequential model of the analysis-page body (lines 101-195): each
statement reads `data` and binds a fresh local; every pandas call used
(`groupby().sum()`, `sort_values`, `head`, `reset_index`, `rename`) returns a
new object, and the one in-place update, `top_categories["Others"] = others`,
targets the local Series `top_categories`, never `data`.  The pair returned
is (the five views, the value of the `data` variable when the page ends). -/
def runAnalysis (data : List Row) : AnalysisOutput × List Row :=
  let stations := (sortByCountDesc (groupSumBy strLe Row.station data)).take 15
  let cats := sortByCountDesc (groupSumBy strLe Row.category data)
  let top0 := cats.take 8
  let others := ((cats.drop 8).map Prod.snd).sum
  let top1 := if 0 < others then assignOthers top0 others else top0
  let years := groupSumBy (· ≤ ·) Row.year data
  let locs := groupSumBy tripleLe (fun r => (r.station, r.location_x, r.location_y)) data
  let hot := (sortByCountDesc (groupSumBy pairLe (fun r => (r.location_x, r.location_y)) data)).take 20
  (⟨stations, top1, years, locs, hot⟩, data)

/-- Helper to write concrete sample rows compactly. -/
def sampleRow (s c : String) (x y yr : Int) (n : Nat) : Row :=
  ⟨s, c, x, y, yr, n⟩

/-- A concrete table with 10 distinct categories, none of them named
`"Others"`. -/
def sampleWide : List Row :=
  [sampleRow "S1" "A" 1 2 2020 10, sampleRow "S1" "B" 1 2 2020 9,
   sampleRow "S2" "C" 3 4 2020 8, sampleRow "S2" "D" 3 4 2021 7,
   sampleRow "S3" "E" 5 6 2021 6, sampleRow "S3" "F" 5 6 2021 5,
   sampleRow "S4" "G" 7 8 2022 4, sampleRow "S4" "H" 7 8 2022 3,
   sampleRow "S5" "I" 9 9 2022 2, sampleRow "S5" "J" 9 9 2022 1]

/-- A concrete table with 9 distinct categories in which the category
literally named `"Others"` has the largest total, and the smallest category
(`"z"`, total 1) falls outside the top 8. -/
def sampleOthers : List Row :=
  [sampleRow "S1" "Others" 1 2 2020 10, sampleRow "S1" "a" 1 2 2020 9,
   sampleRow "S1" "b" 1 2 2020 9, sampleRow "S1" "c" 1 2 2020 9,
   sampleRow "S1" "d" 1 2 2020 9, sampleRow "S1" "e" 1 2 2020 9,
   sampleRow "S1" "f" 1 2 2020 9, sampleRow "S1" "g" 1 2 2020 9,
   sampleRow "S1" "z" 1 2 2020 1]

/-- The two-row example table of the spec's testable properties. -/
def sampleSmall : List Row :=
  [sampleRow "A" "Theft" 1 2 2020 5, sampleRow "A" "Theft" 1 2 2021 3]

/-! ### General lemmas about the grouping and sorting combinators -/

/-- Splitting the total count of a table along one key value. -/
theorem totalCount_filter_split {K : Type} [DecidableEq K] (key : Row → K)
    (rows : List Row) (k : K) :
    totalCount rows
      = groupVal key rows k
        + totalCount (rows.filter (fun r => !(decide (key r = k)))) := by
  have hperm :=
    (List.filter_append_perm (fun r => decide (key r = k)) rows).map Row.crime_count
  unfold totalCount groupVal
  rw [← hperm.sum_eq, List.map_append, List.sum_append]

/-- Summing the group totals over any duplicate-free list of keys covering
all rows reproduces the total count of the table. -/
theorem sum_groupVal_eq_totalCount {K : Type} [DecidableEq K] (key : Row → K) :
    ∀ (keys : List K) (rows : List Row), keys.Nodup →
      (∀ r ∈ rows, key r ∈ keys) →
      (keys.map (groupVal key rows)).sum = totalCount rows := by
  intro keys
  induction keys with
  | nil =>
    intro rows _ hall
    have hre : rows = [] := by
      cases rows with
      | nil => rfl
      | cons r rs => exact absurd (hall r (by simp)) (by simp)
    subst hre
    simp [totalCount]
  | cons k ks ih =>
    intro rows hnd hall
    have hk_not : k ∉ ks := (List.nodup_cons.mp hnd).1
    have hnd2 : ks.Nodup := (List.nodup_cons.mp hnd).2
    have hall2 : ∀ r ∈ rows.filter (fun r => !(decide (key r = k))), key r ∈ ks := by
      intro r hr
      obtain ⟨hrmem, hcond⟩ := List.mem_filter.mp hr
      have hne : key r ≠ k := by
        intro h
        simp [h] at hcond
      rcases List.mem_cons.mp (hall r hrmem) with h | h
      · exact absurd h hne
      · exact h
    have hcongr : ∀ k2 ∈ ks,
        groupVal key rows k2
          = groupVal key (rows.filter (fun r => !(decide (key r = k)))) k2 := by
      intro k2 hk2
      have hne : k2 ≠ k := fun h2 => hk_not (h2 ▸ hk2)
      unfold groupVal
      have hfil :
          (rows.filter (fun r => !(decide (key r = k)))).filter
              (fun r => decide (key r = k2))
            = rows.filter (fun r => decide (key r = k2)) := by
        rw [List.filter_filter]
        apply List.filter_congr
        intro r _
        by_cases h : key r = k2
        · simp [h, hne]
        · simp [h]
      rw [hfil]
    calc ((k :: ks).map (groupVal key rows)).sum
        = groupVal key rows k + (ks.map (groupVal key rows)).sum := by simp
      _ = groupVal key rows k
            + (ks.map (groupVal key (rows.filter (fun r => !(decide (key r = k)))))).sum := by
          rw [List.map_congr_left hcongr]
      _ = groupVal key rows k
            + totalCount (rows.filter (fun r => !(decide (key r = k)))) := by
          rw [ih (rows.filter (fun r => !(decide (key r = k)))) hnd2 hall2]
      _ = totalCount rows := (totalCount_filter_split key rows k).symm

/-- A grouped-and-summed view accounts for every unit of `crime_count`. -/
theorem viewTotal_groupSumBy {K : Type} [DecidableEq K] (le : K → K → Prop)
    [DecidableRel le] (key : Row → K) (rows : List Row) :
    viewTotal (groupSumBy le key rows) = totalCount rows := by
  unfold viewTotal groupSumBy
  rw [List.map_map]
  have h1 : (Prod.snd ∘ fun k => (k, groupVal key rows k)) = groupVal key rows := rfl
  rw [h1]
  have hperm := (List.perm_insertionSort le (rows.map key).dedup).map (groupVal key rows)
  rw [hperm.sum_eq]
  exact sum_groupVal_eq_totalCount key _ rows (List.nodup_dedup _)
    (fun r hr => List.mem_dedup.mpr (List.mem_map.mpr ⟨r, hr, rfl⟩))

/-- Re-sorting a view by descending count leaves its total unchanged. -/
theorem viewTotal_sortByCountDesc {K : Type} (l : List (K × Nat)) :
    viewTotal (sortByCountDesc l) = viewTotal l :=
  ((List.perm_insertionSort countGe l).map Prod.snd).sum_eq

/-- The keys of a grouped view are the sorted deduplicated key column. -/
theorem keys_groupSumBy {K : Type} [DecidableEq K] (le : K → K → Prop)
    [DecidableRel le] (key : Row → K) (rows : List Row) :
    (groupSumBy le key rows).map Prod.fst
      = List.insertionSort le (rows.map key).dedup := by
  unfold groupSumBy
  rw [List.map_map]
  exact List.map_id _

/-- The keys of a grouped view are a permutation of the distinct keys. -/
theorem keys_groupSumBy_perm {K : Type} [DecidableEq K] (le : K → K → Prop)
    [DecidableRel le] (key : Row → K) (rows : List Row) :
    ((groupSumBy le key rows).map Prod.fst).Perm (rows.map key).dedup := by
  rw [keys_groupSumBy]
  exact List.perm_insertionSort le _

/-- A grouped view has no duplicate keys. -/
theorem keys_groupSumBy_nodup {K : Type} [DecidableEq K] (le : K → K → Prop)
    [DecidableRel le] (key : Row → K) (rows : List Row) :
    ((groupSumBy le key rows).map Prod.fst).Nodup :=
  (keys_groupSumBy_perm le key rows).symm.nodup (List.nodup_dedup _)

/-- Every entry of a grouped view carries the summed count of its group. -/
theorem snd_of_mem_groupSumBy {K : Type} [DecidableEq K] {le : K → K → Prop}
    [DecidableRel le] {key : Row → K} {rows : List Row} {p : K × Nat}
    (hp : p ∈ groupSumBy le key rows) : p.2 = groupVal key rows p.1 := by
  unfold groupSumBy at hp
  obtain ⟨k, _, hkp⟩ := List.mem_map.mp hp
  subst hkp
  rfl

/-- A view sorted by `sortByCountDesc` is sorted by descending count. -/
theorem sorted_sortByCountDesc {K : Type} (l : List (K × Nat)) :
    (sortByCountDesc l).Sorted countGe :=
  List.sorted_insertionSort countGe l

/-- The counts of a descending-sorted view, projected out, are sorted
non-increasingly. -/
theorem values_sorted_sortByCountDesc {K : Type} (l : List (K × Nat)) :
    ((sortByCountDesc l).map Prod.snd).Sorted (fun a b : Nat => b ≤ a) :=
  List.pairwise_map.mpr (sorted_sortByCountDesc l)

/-- `viewTotal` distributes over list append. -/
theorem viewTotal_append {K : Type} (l1 l2 : List (K × Nat)) :
    viewTotal (l1 ++ l2) = viewTotal l1 + viewTotal l2 := by
  unfold viewTotal
  rw [List.map_append, List.sum_append]

/-- `viewTotal` of a cons. -/
theorem viewTotal_cons {K : Type} (p : K × Nat) (l : List (K × Nat)) :
    viewTotal (p :: l) = p.2 + viewTotal l := by
  unfold viewTotal
  simp

/-- A view splits as its first `n` entries followed by the rest. -/
theorem viewTotal_take_drop {K : Type} (n : Nat) (l : List (K × Nat)) :
    viewTotal l = viewTotal (l.take n) + viewTotal (l.drop n) := by
  conv_lhs => rw [← List.take_append_drop n l]
  exact viewTotal_append _ _

/-- Effect of the pandas label-overwrite on a view total: when an entry
labelled `"Others"` with value `v` is present among duplicate-free keys,
overwriting it with `e` changes the total by replacing `v` with `e`. -/
theorem viewTotal_overwrite (l : List (String × Nat)) (e v : Nat)
    (hmem : ("Others", v) ∈ l) (hnd : (l.map Prod.fst).Nodup) :
    viewTotal (l.map (fun p => if p.1 = "Others" then (p.1, e) else p)) + v
      = viewTotal l + e := by
  induction l with
  | nil => simp at hmem
  | cons q rest ih =>
    rw [List.map_cons] at hnd
    have hndq : q.1 ∉ rest.map Prod.fst := (List.nodup_cons.mp hnd).1
    have hndrest : (rest.map Prod.fst).Nodup := (List.nodup_cons.mp hnd).2
    rcases List.mem_cons.mp hmem with hq | hrest
    · have hq1 : q.1 = "Others" := by rw [← hq]
      have hq2 : q.2 = v := by rw [← hq]
      have hrest_id :
          rest.map (fun p => if p.1 = "Others" then (p.1, e) else p) = rest := by
        have hno : ∀ p ∈ rest, p.1 ≠ "Others" := by
          intro p hp hcon
          exact hndq (hq1 ▸ hcon ▸ List.mem_map.mpr ⟨p, hp, rfl⟩)
        calc rest.map (fun p => if p.1 = "Others" then (p.1, e) else p)
            = rest.map id := List.map_congr_left (fun p hp => by simp [hno p hp])
          _ = rest := List.map_id rest
      rw [List.map_cons, hrest_id, if_pos hq1, viewTotal_cons, viewTotal_cons, hq2]
      omega
    · have hOthers_in : "Others" ∈ rest.map Prod.fst :=
        List.mem_map.mpr ⟨("Others", v), hrest, rfl⟩
      have hq1 : q.1 ≠ "Others" := fun h => hndq (h ▸ hOthers_in)
      have hih := ih hrest hndrest
      rw [List.map_cons, if_neg hq1, viewTotal_cons, viewTotal_cons]
      omega

/-- The `"Others"` test of `assignOthers` decides membership of the label
among the keys. -/
theorem any_others_eq (l : List (String × Nat)) :
    l.any (fun p => p.1 == "Others") = decide ("Others" ∈ l.map Prod.fst) := by
  induction l with
  | nil => simp
  | cons q rest ih =>
    simp only [List.any_cons, List.map_cons, List.mem_cons, ih]
    by_cases h : q.1 = "Others"
    · simp [h, beq_iff_eq, eq_comm]
    · simp [h, beq_iff_eq, Ne.symm h]

/-! ### Claim theorems -/

/-- Claim C2: the station-totals view equals the result of grouping rows by
station, summing `crime_count` in each group (one entry per distinct
station), sorting by summed count in descending order, and taking the first
15 entries. -/
theorem c2_station_totals (data : List Row) :
    ∃ g : List (String × Nat),
      (g.map Prod.fst).Perm ((data.map Row.station).dedup)
      ∧ (∀ p ∈ g, p.2 = groupVal Row.station data p.1)
      ∧ (g.map Prod.snd).Sorted (fun a b : Nat => b ≤ a)
      ∧ station_counts data = (g.take 15 : List (String × Nat)) := by
  refine ⟨sortByCountDesc (groupSumBy strLe Row.station data), ?_, ?_, ?_, rfl⟩
  · exact ((List.perm_insertionSort countGe _).map Prod.fst).trans
      (keys_groupSumBy_perm strLe Row.station data)
  · intro p hp
    exact snd_of_mem_groupSumBy ((List.perm_insertionSort countGe _).mem_iff.mp hp)
  · exact values_sorted_sortByCountDesc _

/-- Claim C3: the hotspots view equals the result of grouping rows by the
coordinate pair, summing `crime_count` in each group (one entry per distinct
pair), sorting by summed count in descending order, and taking the first 20
entries. -/
theorem c3_hotspots (data : List Row) :
    ∃ g : List ((Int × Int) × Nat),
      (g.map Prod.fst).Perm ((data.map (fun r => (r.location_x, r.location_y))).dedup)
      ∧ (∀ p ∈ g, p.2 = groupVal (fun r => (r.location_x, r.location_y)) data p.1)
      ∧ (g.map Prod.snd).Sorted (fun a b : Nat => b ≤ a)
      ∧ hotspot_data data = (g.take 20 : List ((Int × Int) × Nat)) := by
  refine ⟨sortByCountDesc
      (groupSumBy pairLe (fun r => (r.location_x, r.location_y)) data),
    ?_, ?_, ?_, rfl⟩
  · exact ((List.perm_insertionSort countGe _).map Prod.fst).trans
      (keys_groupSumBy_perm pairLe (fun r => (r.location_x, r.location_y)) data)
  · intro p hp
    exact snd_of_mem_groupSumBy ((List.perm_insertionSort countGe _).mem_iff.mp hp)
  · exact values_sorted_sortByCountDesc _

/-- Claim C4: the yearly-trend view has one entry per distinct year, each
carrying the summed `crime_count` of that year, and its entries are ordered
by strictly ascending year. -/
theorem c4_yearly_trend (data : List Row) :
    ((yearly_trend data).map Prod.fst).Perm ((data.map Row.year).dedup)
    ∧ (∀ p ∈ yearly_trend data, p.2 = groupVal Row.year data p.1)
    ∧ ((yearly_trend data).map Prod.fst).Sorted (fun a b : Int => a < b) := by
  refine ⟨keys_groupSumBy_perm _ _ _, fun p hp => snd_of_mem_groupSumBy hp, ?_⟩
  have hsorted : ((yearly_trend data).map Prod.fst).Sorted (fun a b : Int => a ≤ b) := by
    unfold yearly_trend
    rw [keys_groupSumBy]
    exact List.sorted_insertionSort _ _
  exact hsorted.lt_of_le (keys_groupSumBy_nodup _ _ _)

/-- Claim C5: for every non-empty table, each of the five derived views taken
before any top-N truncation accounts for the whole table: the sum of its
summed counts equals the grand total of `crime_count` over all rows. -/
theorem c5_views_preserve_grand_total (data : List Row) (_hne : data ≠ []) :
    viewTotal (sortByCountDesc (groupSumBy strLe Row.station data)) = totalCount data
    ∧ viewTotal (category_counts data) = totalCount data
    ∧ viewTotal (yearly_trend data) = totalCount data
    ∧ viewTotal (station_locations data) = totalCount data
    ∧ viewTotal (sortByCountDesc
        (groupSumBy pairLe (fun r => (r.location_x, r.location_y)) data))
      = totalCount data := by
  refine ⟨?_, ?_, ?_, ?_, ?_⟩ <;>
    simp [category_counts, yearly_trend, station_locations,
      viewTotal_sortByCountDesc, viewTotal_groupSumBy]

/-- Witness for claim C5 at the spec's two-row example table. -/
theorem c5_witness :
    viewTotal (sortByCountDesc (groupSumBy strLe Row.station sampleSmall))
      = totalCount sampleSmall
    ∧ viewTotal (category_counts sampleSmall) = totalCount sampleSmall
    ∧ viewTotal (yearly_trend sampleSmall) = totalCount sampleSmall
    ∧ viewTotal (station_locations sampleSmall) = totalCount sampleSmall
    ∧ viewTotal (sortByCountDesc
        (groupSumBy pairLe (fun r => (r.location_x, r.location_y)) sampleSmall))
      = totalCount sampleSmall :=
  c5_views_preserve_grand_total sampleSmall (by decide)

/-- Claim C6: the station-totals view never exceeds 15 rows, the hotspots
view never exceeds 20 rows, and in both the summed counts are monotonically
non-increasing. -/
theorem c6_truncation_laws (data : List Row) :
    (station_counts data).length ≤ 15
    ∧ (hotspot_data data).length ≤ 20
    ∧ ((station_counts data).map Prod.snd).Sorted (fun a b : Nat => b ≤ a)
    ∧ ((hotspot_data data).map Prod.snd).Sorted (fun a b : Nat => b ≤ a) := by
  refine ⟨?_, ?_, ?_, ?_⟩
  · unfold station_counts
    rw [List.length_take]
    exact inf_le_left
  · unfold hotspot_data
    rw [List.length_take]
    exact inf_le_left
  · unfold station_counts
    rw [List.map_take]
    exact List.Pairwise.sublist (List.take_sublist 15 _)
      (values_sorted_sortByCountDesc _)
  · unfold hotspot_data
    rw [List.map_take]
    exact List.Pairwise.sublist (List.take_sublist 20 _)
      (values_sorted_sortByCountDesc _)

/-- Claim C7: on the empty table each of the aggregation operations returns
an empty view; in this embedding each operation is a total function, so no
exception can be raised. -/
theorem c7_empty_table_views_empty :
    station_counts [] = [] ∧ category_counts [] = [] ∧ top_categories [] = []
    ∧ yearly_trend [] = [] ∧ station_locations [] = []
    ∧ hotspot_data [] = [] :=
  ⟨rfl, rfl, rfl, rfl, rfl, rfl⟩

/-- Claim C8: the loader maps every outcome of the underlying file read to
either the table itself or the explicit `none` signal, never a propagated
exception; on the `none` signal the Dataset Overview and Data Analysis
branches render warnings while the Home and About branches render their
normal content. -/
theorem c8_loader_never_raises (o : LoadOutcome) :
    (∃ t, o = LoadOutcome.ok t ∧ loadDataSafe o = some t)
    ∨ ((∀ t, o ≠ LoadOutcome.ok t) ∧ loadDataSafe o = none
        ∧ isWarning (renderOverview (loadDataSafe o)) = true
        ∧ isWarning (renderAnalysis (loadDataSafe o)) = true
        ∧ isWarning (renderHome (loadDataSafe o)) = false
        ∧ isWarning (renderAbout (loadDataSafe o)) = false) := by
  cases o with
  | ok t => exact Or.inl ⟨t, rfl, rfl⟩
  | failure m =>
      exact Or.inr ⟨fun t h => LoadOutcome.noConfusion h, rfl, rfl, rfl, rfl, rfl⟩

/-- Claim C9: running the full analysis pipeline leaves the source table
unchanged, and the views it renders are exactly the five pure view functions
of that table. -/
theorem c9_source_table_unchanged (data : List Row) :
    (runAnalysis data).2 = data
    ∧ (runAnalysis data).1
        = ⟨station_counts data, top_categories data, yearly_trend data,
           station_locations data, hotspot_data data⟩ :=
  ⟨rfl, rfl⟩

/-- The untruncated category view has one entry per distinct category. -/
theorem length_category_counts (data : List Row) :
    (category_counts data).length = numCategories data := by
  unfold category_counts sortByCountDesc numCategories
  rw [(List.perm_insertionSort countGe _).length_eq]
  unfold groupSumBy
  rw [List.length_map, (List.perm_insertionSort strLe _).length_eq]

/-- The untruncated category view accounts for the grand total. -/
theorem viewTotal_category_counts (data : List Row) :
    viewTotal (category_counts data) = totalCount data := by
  unfold category_counts
  rw [viewTotal_sortByCountDesc, viewTotal_groupSumBy]

/-- The keys of the untruncated category view are duplicate-free. -/
theorem keys_category_counts_nodup (data : List Row) :
    ((category_counts data).map Prod.fst).Nodup := by
  have hperm :=
    (List.perm_insertionSort countGe (groupSumBy strLe Row.category data)).map Prod.fst
  exact hperm.symm.nodup (keys_groupSumBy_nodup strLe Row.category data)

/-- Claim C1 (amended): for a table with more than 8 distinct categories,
provided no category literally named `"Others"` ranks within the displayed
top 8, the category-totals view keeps exactly 8 entries and appends a single
`"Others"` entry holding the excluded remainder (only when that remainder is
non-zero), so that the displayed values sum to the grand total. -/
theorem c1_category_totals_partition (data : List Row)
    (h8 : 8 < numCategories data)
    (hno : "Others" ∉ ((category_counts data).take 8).map Prod.fst) :
    ((category_counts data).take 8).length = 8
    ∧ top_categories data
        = (category_counts data).take 8
          ++ (if 0 < othersSum data then [("Others", othersSum data)] else [])
    ∧ viewTotal (top_categories data) = totalCount data := by
  have hlen : ((category_counts data).take 8).length = 8 := by
    rw [List.length_take, length_category_counts]
    omega
  have hany : ((category_counts data).take 8).any (fun p => p.1 == "Others") = false := by
    rw [any_others_eq, decide_eq_false_iff_not]
    exact hno
  have hsplit : viewTotal (category_counts data)
      = viewTotal ((category_counts data).take 8) + othersSum data :=
    viewTotal_take_drop 8 (category_counts data)
  have htop : top_categories data
      = (category_counts data).take 8
        ++ (if 0 < othersSum data then [("Others", othersSum data)] else []) := by
    unfold top_categories
    by_cases hpos : 0 < othersSum data
    · rw [if_pos hpos, if_pos hpos]
      unfold assignOthers
      rw [hany]
      simp
    · rw [if_neg hpos, if_neg hpos, List.append_nil]
  refine ⟨hlen, htop, ?_⟩
  rw [htop]
  by_cases hpos : 0 < othersSum data
  · rw [if_pos hpos, viewTotal_append, ← viewTotal_category_counts data, hsplit]
    unfold viewTotal
    simp
  · have hzero : othersSum data = 0 := Nat.eq_zero_of_not_pos hpos
    rw [if_neg hpos, List.append_nil, ← viewTotal_category_counts data, hsplit, hzero]
    omega

/-- Witness for the amended claim C1 at a concrete table with ten distinct
categories, none of them named `"Others"`. -/
theorem c1_witness :
    ((category_counts sampleWide).take 8).length = 8
    ∧ top_categories sampleWide
        = (category_counts sampleWide).take 8
          ++ (if 0 < othersSum sampleWide then [("Others", othersSum sampleWide)] else [])
    ∧ viewTotal (top_categories sampleWide) = totalCount sampleWide :=
  c1_category_totals_partition sampleWide (by decide) (by decide)

/-- Counterexample to claim C1 as stated: `sampleOthers` has 9 distinct
categories, yet the sum of the displayed values differs from the grand total
of `crime_count`, because the residual sum overwrote the real category named
`"Others"` instead of being appended. -/
theorem c1_counterexample :
    8 < numCategories sampleOthers
    ∧ viewTotal (top_categories sampleOthers) ≠ totalCount sampleOthers := by
  decide

/-- Claim C10: when the table has a category literally named `"Others"`
ranking within the displayed top 8 and the excluded remainder is positive,
the label assignment overwrites that category's total with the remainder:
the view keeps at most 8 entries and its values no longer sum to the grand
total. -/
theorem c10_others_overwritten (data : List Row)
    (hmem : "Others" ∈ ((category_counts data).take 8).map Prod.fst)
    (hpos : 0 < othersSum data) :
    top_categories data
      = ((category_counts data).take 8).map
          (fun p => if p.1 = "Others" then (p.1, othersSum data) else p)
    ∧ (top_categories data).length ≤ 8
    ∧ viewTotal (top_categories data) ≠ totalCount data := by
  have hany : ((category_counts data).take 8).any (fun p => p.1 == "Others") = true := by
    rw [any_others_eq]
    exact decide_eq_true hmem
  have htop : top_categories data
      = ((category_counts data).take 8).map
          (fun p => if p.1 = "Others" then (p.1, othersSum data) else p) := by
    unfold top_categories
    rw [if_pos hpos]
    unfold assignOthers
    rw [if_pos hany]
  have hlen : (top_categories data).length ≤ 8 := by
    rw [htop, List.length_map, List.length_take]
    exact inf_le_left
  refine ⟨htop, hlen, ?_⟩
  obtain ⟨p, hp, hpfst⟩ := List.mem_map.mp hmem
  have hOv : ("Others", p.2) ∈ (category_counts data).take 8 := by
    rw [← hpfst]
    exact hp
  have hndtake : (((category_counts data).take 8).map Prod.fst).Nodup := by
    rw [List.map_take]
    exact List.Nodup.sublist (List.take_sublist 8 _) (keys_category_counts_nodup data)
  have hex : ∃ q ∈ (category_counts data).drop 8, 0 < q.2 := by
    by_contra hcon
    push_neg at hcon
    have hall : ∀ x ∈ ((category_counts data).drop 8).map Prod.snd, x = 0 := by
      intro x hx
      obtain ⟨q, hq, rfl⟩ := List.mem_map.mp hx
      exact Nat.le_zero.mp (hcon q hq)
    have hzero : othersSum data = 0 := List.sum_eq_zero hall
    omega
  obtain ⟨q, hq, hqpos⟩ := hex
  have hsorted : (category_counts data).Pairwise countGe :=
    sorted_sortByCountDesc (groupSumBy strLe Row.category data)
  have hdom : q.2 ≤ p.2 := by
    rw [← List.take_append_drop 8 (category_counts data)] at hsorted
    exact (List.pairwise_append.mp hsorted).2.2 _ hOv _ hq
  have hvpos : 0 < p.2 := lt_of_lt_of_le hqpos hdom
  have hover := viewTotal_overwrite ((category_counts data).take 8)
    (othersSum data) p.2 hOv hndtake
  have hsplit2 : viewTotal (category_counts data)
      = viewTotal ((category_counts data).take 8) + othersSum data :=
    viewTotal_take_drop 8 _
  have htotal := viewTotal_category_counts data
  intro hcon
  rw [htop] at hcon
  omega

/-- Witness for claim C10 at a concrete table whose largest category is
literally named `"Others"` while a ninth category is excluded. -/
theorem c10_witness :
    top_categories sampleOthers
      = ((category_counts sampleOthers).take 8).map
          (fun p => if p.1 = "Others" then (p.1, othersSum sampleOthers) else p)
    ∧ (top_categories sampleOthers).length ≤ 8
    ∧ viewTotal (top_categories sampleOthers) ≠ totalCount sampleOthers :=
  c10_others_overwritten sampleOthers (by decide) (by decide)
